import Mathlib

/-!
Verification development for the two-party WebRTC signaling relay
(`src/realtime-worker/src/index.ts`) and the TURN credential worker
(`src/unnamed/part_000`).

The relay worker is modelled as a state machine over one Durable Object
session (`RoomDO`): the two slot fields `host` and `join`, the set of
accepted-and-still-open connections (`live`, identified by the order in
which `WebSocketPair`s were created), and the role captured by each
accepted connection's event-listener closures (`roles`).  Sends that can
throw (`server.send`/`target.send`/`peer.send`) are modelled by an oracle
`fails : Nat → Bool` saying which connections' transports are dead at that
instant; a send to a dead connection throws and is therefore not delivered.
-/

/-- Role string assigned at line 40 of `index.ts`
(`this.host ? (this.join ? "spectator" : "join") : "host"`); the
`"spectator"` outcome is represented by `none` below because it is refused
before a connection exists. -/
inductive Role where
  | host : Role
  | join : Role
deriving DecidableEq, Repr

/-- A WebSocket frame as received by the `message` listener: `evt.data` is
either a JS string (text frame) or an `ArrayBuffer` (binary frame). -/
inductive WsData where
  | text : String → WsData
  | binary : List Nat → WsData
deriving DecidableEq, Repr

/-- Line 54 of `index.ts`:
`typeof evt.data === "string" ? evt.data : String(evt.data)`.
`String(buf)` on an `ArrayBuffer` yields `"[object ArrayBuffer]"`. -/
def coercePayload : WsData → String
  | WsData.text s => s
  | WsData.binary _ => "[object ArrayBuffer]"

/-- State of one `RoomDO` instance.  `host`/`join` are the slot fields
(lines 33-34); `roles` records the `role` captured by each accepted
connection's listeners; `live` lists accepted connections whose transport
is still open, in acceptance order; `nextId` numbers `WebSocketPair`s. -/
structure Sess where
  host : Option Nat
  join : Option Nat
  roles : List (Nat × Role)
  live : List Nat
  nextId : Nat
deriving DecidableEq, Repr

def initSess : Sess := ⟨none, none, [], [], 0⟩

def lookupRole (rs : List (Nat × Role)) (c : Nat) : Option Role :=
  (rs.find? (fun p => p.1 == c)).map Prod.snd

def roleOf (s : Sess) (c : Nat) : Option Role := lookupRole s.roles c

/-- The occupant of the slot belonging to role `r`. -/
def slotOf (s : Sess) (r : Role) : Option Nat :=
  match r with
  | Role.host => s.host
  | Role.join => s.join

/-- The occupant of the other slot relative to role `r`
(`role === "host" ? this.join : this.host`). -/
def otherSlot (s : Sess) (r : Role) : Option Nat :=
  match r with
  | Role.host => s.join
  | Role.join => s.host

def roleStr : Role → String
  | Role.host => "host"
  | Role.join => "join"

/-- Characters allowed by the room-code pattern `[A-Za-z0-9_-]`. -/
def isCodeChar (c : Char) : Bool :=
  (65 ≤ c.toNat && c.toNat ≤ 90) || (97 ≤ c.toNat && c.toNat ≤ 122) ||
    (48 ≤ c.toNat && c.toNat ≤ 57) || (c.toNat == 95) || (c.toNat == 45)

def hexDigit (n : Nat) : Char :=
  if n < 10 then Char.ofNat (48 + n) else Char.ofNat (87 + n)

/-- `JSON.stringify` escaping of one character inside a JS string. -/
def jsonEscapeChar (c : Char) : List Char :=
  if c = '"' then ['\\', '"']
  else if c = '\\' then ['\\', '\\']
  else if c = '\x08' then ['\\', 'b']
  else if c = '\x09' then ['\\', 't']
  else if c = '\x0a' then ['\\', 'n']
  else if c = '\x0c' then ['\\', 'f']
  else if c = '\x0d' then ['\\', 'r']
  else if c.toNat < 32 then ['\\', 'u', '0', '0', hexDigit (c.toNat / 16), hexDigit (c.toNat % 16)]
  else [c]

def jsonEscape (s : String) : String :=
  ⟨s.data.foldr (fun c acc => jsonEscapeChar c ++ acc) []⟩

/-- `JSON.stringify({ t: "ready", role, room })` (line 71). -/
def readyMsg (role room : String) : String :=
  ("\x7b\"t\":\"ready\",\"role\":\"" ++ jsonEscape role ++ "\",\"room\":\"") ++
    jsonEscape room ++ "\"\x7d"

/-- `JSON.stringify({ t: "peer", state: "joined" })` (lines 73-74). -/
def peerJoinedMsg : String := "\x7b\"t\":\"peer\",\"state\":\"joined\"\x7d"

/-- `JSON.stringify({ t: "peer", state: "left" })` (line 63). -/
def peerLeftMsg : String := "\x7b\"t\":\"peer\",\"state\":\"left\"\x7d"

/-- Result of delivering one event to the session: new state, the frames
actually delivered (receiver id, frame) in send order, and the HTTP status
for connect events. -/
structure StepOut where
  state : Sess
  sends : List (Nat × WsData)
  status : Option Nat
deriving DecidableEq, Repr

/-- The `cleanup` closure (lines 58-65), with `c` the captured `server`
and `r` the captured `role`: vacate the captured role's slot only if it
still holds this very connection, then notify the occupant of the other
slot (if any) with the peer-left message; that send is wrapped in its own
`try`/`catch`. -/
def cleanupStep (fails : Nat → Bool) (s : Sess) (c : Nat) (r : Role) :
    Sess × List (Nat × WsData) :=
  let s1 : Sess :=
    { s with
      host := if r = Role.host ∧ s.host = some c then none else s.host
      join := if r = Role.join ∧ s.join = some c then none else s.join }
  (s1,
    match otherSlot s1 r with
    | some p => if fails p then [] else [(p, WsData.text peerLeftMsg)]
    | none => [])

/-- Line 40: role decided from current occupancy; `none` is the
`"spectator"` (refused) outcome. -/
def connRole (s : Sess) : Option Role :=
  match s.host, s.join with
  | some _, some _ => none
  | some _, none => some Role.join
  | none, _ => some Role.host

/-- The peer-joined notifications of lines 72-75: sent to both occupants
once both slots are filled, each wrapped in its own `try`/`catch`. -/
def joinedSends (fails : Nat → Bool) (s : Sess) : List (Nat × WsData) :=
  match s.host, s.join with
  | some h, some j =>
      (if fails h then [] else [(h, WsData.text peerJoinedMsg)]) ++
        (if fails j then [] else [(j, WsData.text peerJoinedMsg)])
  | _, _ => []

/-- One `RoomDO.fetch` upgrade request reaching lines 40-80, with `room`
the value computed on line 39.  If both slots are occupied the request is
refused with 409 before any `WebSocketPair` exists.  Otherwise a pair is
created, the server end accepted (the connection becomes live if its
transport is), the slot is assigned, and the ready message is sent: if that
send throws (dead transport, so the connection is not live), the `catch`
on line 76 runs `cleanup`; otherwise the peer-joined notifications go out.
The response status is 101 in every accepted case (line 80). -/
def connectStep (fails : Nat → Bool) (s : Sess) (room : String) : StepOut :=
  match connRole s with
  | none => ⟨s, [], some 409⟩
  | some r =>
    let id := s.nextId
    let sAcc : Sess :=
      { host := if r = Role.host then some id else s.host
        join := if r = Role.join then some id else s.join
        roles := (id, r) :: s.roles
        live := s.live ++ [id]
        nextId := id + 1 }
    if fails id then
      let c := cleanupStep fails { sAcc with live := s.live } id r
      ⟨c.1, c.2, some 101⟩
    else
      ⟨sAcc, (id, WsData.text (readyMsg (roleStr r) room)) :: joinedSends fails sAcc,
        some 101⟩

/-- Events delivered to one session, serialized by the Durable Object
runtime: an upgrade request (`connect`), a message frame from an accepted
connection, and the transport close/error of an accepted connection. -/
inductive Ev where
  | connect : String → Ev
  | message : Nat → WsData → Ev
  | disconnect : Nat → Ev

/-- Deliver one event.  `message` is the listener of lines 51-56: look up
the other slot relative to the sender's captured role, drop the frame if
that slot is empty, otherwise coerce the payload to a string and send it
inside `try`/`catch`; session state is never touched.  `disconnect` is the
transport close/error of `c`: `c` stops being live and the `cleanup`
closure (with its captured role) runs; a `c` that was never accepted has
no listeners. -/
def step (fails : Nat → Bool) (s : Sess) : Ev → StepOut
  | Ev.connect room => connectStep fails s room
  | Ev.message src d =>
    match roleOf s src with
    | none => ⟨s, [], none⟩
    | some r =>
      match otherSlot s r with
      | none => ⟨s, [], none⟩
      | some t => ⟨s, if fails t then [] else [(t, WsData.text (coercePayload d))], none⟩
  | Ev.disconnect c =>
    let s0 : Sess := { s with live := s.live.erase c }
    match roleOf s c with
    | none => ⟨s0, [], none⟩
    | some r =>
      let p := cleanupStep fails s0 c r
      ⟨p.1, p.2, none⟩

/-- Run a sequence of events, each with its own send-failure oracle;
returns the final state and all delivered frames in order. -/
def runF (s : Sess) : List ((Nat → Bool) × Ev) → Sess × List (Nat × WsData)
  | [] => (s, [])
  | (f, e) :: rest =>
    let o := step f s e
    ((runF o.state rest).1, o.sends ++ (runF o.state rest).2)

def nofail : Nat → Bool := fun _ => false

/-! ## The dispatcher (`default.fetch`, lines 12-30) -/

/-- An inbound HTTP request as the worker sees it: `url.pathname`, the
`Upgrade` header, and the `Origin` header. -/
structure HReq where
  path : String
  upgrade : Option String
  origin : Option String
deriving DecidableEq, Repr

def jsToUpper (s : String) : String := ⟨s.data.map Char.toUpper⟩

def jsToLower (s : String) : String := ⟨s.data.map Char.toLower⟩

/-- The route pattern of line 17: `^\/room\/([A-Za-z0-9_-]{4,20})$`,
returning the captured code. -/
def matchRoomPath (p : String) : Option String :=
  match p.data with
  | '/' :: 'r' :: 'o' :: 'o' :: 'm' :: '/' :: rest =>
    if 4 ≤ rest.length ∧ rest.length ≤ 20 ∧ rest.all isCodeChar then some ⟨rest⟩ else none
  | _ => none

/-- JS `String.prototype.split` with a one-character separator. -/
def splitChar (sep : Char) : List Char → List (List Char)
  | [] => [[]]
  | c :: cs =>
    match splitChar sep cs with
    | [] => [[]]
    | t :: ts => if c = sep then [] :: t :: ts else (c :: t) :: ts

/-- Line 39: `(url.pathname.split("/").pop() || "").toUpperCase()`. -/
def roomFromPath (p : String) : String :=
  ⟨((splitChar '/' p.data).getLast?.getD []).map Char.toUpper⟩

/-- Line 22: `env.ALLOWED_ORIGIN || "*"` (unset or empty means wildcard). -/
def allowedOriginOf (cfg : Option String) : String :=
  match cfg with
  | none => "*"
  | some a => if a = "" then "*" else a

/-- Lines 25-26: the Durable Object name the request is routed to
(`idFromName(code.toUpperCase())`); equal keys address the same instance. -/
def sessionKey (p : String) : Option String := (matchRoomPath p).map jsToUpper

inductive DispatchOut where
  | resp : Nat → DispatchOut
  | toRoom : String → DispatchOut
deriving DecidableEq, Repr

/-- `default.fetch` (lines 13-29): health check, route match (404),
websocket upgrade intent (426), origin allow-list (403), then routing to
the `RoomDO` instance named by the uppercased code. -/
def workerFetch (cfg : Option String) (req : HReq) : DispatchOut :=
  if req.path = "/health" then DispatchOut.resp 200
  else
    match matchRoomPath req.path with
    | none => DispatchOut.resp 404
    | some code =>
      if (req.upgrade.map jsToLower) ≠ some "websocket" then DispatchOut.resp 426
      else
        let origin := req.origin.getD ""
        let allowed := allowedOriginOf cfg
        if allowed ≠ "*" ∧ origin ≠ allowed then DispatchOut.resp 403
        else DispatchOut.toRoom (jsToUpper code)

/-- `RoomDO.fetch` (lines 36-81) on the forwarded request: re-check the
upgrade header (426), then run the connect logic on the session state. -/
def roomFetch (fails : Nat → Bool) (s : Sess) (req : HReq) : StepOut :=
  if (req.upgrade.map jsToLower) ≠ some "websocket" then ⟨s, [], some 426⟩
  else connectStep fails s (roomFromPath req.path)

/-- The dispatcher/actor pipeline for one request, with `s` the state of
the session the request's room code addresses. -/
def pipeline (cfg : Option String) (fails : Nat → Bool) (s : Sess) (req : HReq) :
    StepOut :=
  match workerFetch cfg req with
  | DispatchOut.resp n => ⟨s, [], some n⟩
  | DispatchOut.toRoom _ => roomFetch fails s req

/-- A valid room code per the route pattern. -/
def validCode (s : String) : Bool :=
  (4 ≤ s.data.length && s.data.length ≤ 20) && s.data.all isCodeChar

/-- Case-variation at the character level: the two strings have the same
length and corresponding characters agree up to ASCII letter case. -/
def sameUpToCase (a b : String) : Bool :=
  (a.data.length == b.data.length) &&
    (a.data.zip b.data).all (fun p => p.1.toUpper == p.2.toUpper)

/-! ## The TURN credential worker (`src/unnamed/part_000`)

Bytes are `Nat`s below 256; 32-bit words are `Nat`s below 2^32 with
overflow made explicit by reduction modulo 4294967296. -/

def w32 (x : Nat) : Nat := x % 4294967296

def rotl32 (n x : Nat) : Nat := w32 (x <<< n) ||| (x >>> (32 - n))

/-- Big-endian byte expansion, `k` bytes. -/
def beBytes (k n : Nat) : List Nat :=
  match k with
  | 0 => []
  | k + 1 => beBytes k (n / 256) ++ [n % 256]

/-- SHA-1 round constants. -/
def sha1K (i : Nat) : Nat :=
  if i < 20 then 0x5A827999
  else if i < 40 then 0x6ED9EBA1
  else if i < 60 then 0x8F1BBCDC
  else 0xCA62C1D6

/-- SHA-1 round functions (bitwise complement written as xor with the
all-ones 32-bit word). -/
def sha1F (i b c d : Nat) : Nat :=
  if i < 20 then (b &&& c) ||| ((b ^^^ 4294967295) &&& d)
  else if i < 40 then b ^^^ c ^^^ d
  else if i < 60 then (b &&& c) ||| (b &&& d) ||| (c &&& d)
  else b ^^^ c ^^^ d

/-- Extend a 16-word chunk by `i` further schedule words. -/
def sha1Extend (ws : List Nat) : Nat → List Nat
  | 0 => ws
  | i + 1 =>
    let n := ws.length
    let w := rotl32 1 ((ws.getD (n - 3) 0) ^^^ (ws.getD (n - 8) 0) ^^^
      (ws.getD (n - 14) 0) ^^^ (ws.getD (n - 16) 0))
    sha1Extend (ws ++ [w]) i

structure Sha1H where
  h0 : Nat
  h1 : Nat
  h2 : Nat
  h3 : Nat
  h4 : Nat
deriving DecidableEq, Repr

def sha1Init : Sha1H := ⟨0x67452301, 0xEFCDAB89, 0x98BADCFE, 0x10325476, 0xC3D2E1F0⟩

def sha1Compress (h : Sha1H) (chunk : List Nat) : Sha1H :=
  let ws := sha1Extend chunk 64
  let final := (ws.enum).foldl
    (fun (st : Nat × Nat × Nat × Nat × Nat) (p : Nat × Nat) =>
      let (a, b, c, d, e) := st
      let temp := w32 (rotl32 5 a + sha1F p.1 b c d + e + sha1K p.1 + p.2)
      (temp, a, rotl32 30 b, c, d))
    (h.h0, h.h1, h.h2, h.h3, h.h4)
  match final with
  | (a, b, c, d, e) =>
    ⟨w32 (h.h0 + a), w32 (h.h1 + b), w32 (h.h2 + c), w32 (h.h3 + d), w32 (h.h4 + e)⟩

/-- SHA-1 padding: a 0x80 byte, zeros to 56 mod 64, then the 64-bit
big-endian bit length. -/
def sha1Pad (msg : List Nat) : List Nat :=
  msg ++ [0x80] ++ List.replicate ((119 - msg.length % 64) % 64) 0 ++
    beBytes 8 (msg.length * 8)

/-- Group bytes into big-endian 32-bit words. -/
def toWords : List Nat → List Nat
  | b0 :: b1 :: b2 :: b3 :: rest =>
    (((b0 * 256 + b1) * 256 + b2) * 256 + b3) :: toWords rest
  | _ => []

/-- Split a word list into `k` chunks of 16 words. -/
def chunks16 : Nat → List Nat → List (List Nat)
  | 0, _ => []
  | k + 1, ws => ws.take 16 :: chunks16 k (ws.drop 16)

/-- SHA-1 of a byte list (20-byte digest). -/
def sha1 (msg : List Nat) : List Nat :=
  let ws := toWords (sha1Pad msg)
  let final := (chunks16 (ws.length / 16) ws).foldl sha1Compress sha1Init
  beBytes 4 final.h0 ++ beBytes 4 final.h1 ++ beBytes 4 final.h2 ++
    beBytes 4 final.h3 ++ beBytes 4 final.h4

/-- HMAC-SHA1 (RFC 2104, block size 64), the construction WebCrypto's
`{ name: "HMAC", hash: "SHA-1" }` sign operation computes. -/
def hmacSha1 (key msg : List Nat) : List Nat :=
  let k0 := if 64 < key.length then sha1 key else key
  let k64 := k0 ++ List.replicate (64 - k0.length) 0
  sha1 ((k64.map (fun b => b ^^^ 0x5C)) ++ sha1 ((k64.map (fun b => b ^^^ 0x36)) ++ msg))

def b64Char (n : Nat) : Char :=
  "ABCDEFGHIJKLMNOPQRSTUVWXYZabcdefghijklmnopqrstuvwxyz0123456789+/".data.getD n 'A'

/-- Standard base64 with padding; `btoa` applied to the byte string built
on lines 105-108 of the worker computes exactly this. -/
def base64 : List Nat → List Char
  | b0 :: b1 :: b2 :: rest =>
    let n := (b0 * 256 + b1) * 256 + b2
    b64Char (n / 262144) :: b64Char (n / 4096 % 64) :: b64Char (n / 64 % 64) ::
      b64Char (n % 64) :: base64 rest
  | [b0, b1] =>
    let n := (b0 * 256 + b1) * 256
    [b64Char (n / 262144), b64Char (n / 4096 % 64), b64Char (n / 64 % 64), '=']
  | [b0] =>
    let n := b0 * 65536
    [b64Char (n / 262144), b64Char (n / 4096 % 64), '=', '=']
  | [] => []

def utf8Bytes (s : String) : List Nat := s.toUTF8.toList.map UInt8.toNat

/-- `hmacSha1Base64` (lines 96-109): base64 of the HMAC-SHA1 of the
UTF-8-encoded message under the UTF-8-encoded secret. -/
def hmacSha1Base64 (secret message : String) : String :=
  ⟨base64 (hmacSha1 (utf8Bytes secret) (utf8Bytes message))⟩

/-- The TURN worker's environment variables (field names keep the source's
meaning: `usernameVar` is `TURN_USERNAME`, `credentialVar` is
`TURN_CREDENTIAL`, `sharedSecretVar` is `TURN_SHARED_SECRET`,
`usernamePrefixVar` is `TURN_USERNAME_PREFIX`, `tokenTtlVar` is
`TOKEN_TTL_SECONDS`). -/
structure TurnEnv where
  usernameVar : Option String
  credentialVar : Option String
  sharedSecretVar : Option String
  usernamePrefixVar : Option String
  tokenTtlVar : Option String

/-- JS `String.prototype.trim`: strip leading and trailing whitespace. -/
def jsTrim (s : String) : String :=
  ⟨((s.data.dropWhile Char.isWhitespace).reverse.dropWhile Char.isWhitespace).reverse⟩

/-- JS `a || b` on an optional string: unset or empty falls back. -/
def jsOr (v : Option String) (d : String) : String :=
  match v with
  | none => d
  | some s => if s = "" then d else s

/-- JS `Number.parseInt(s, 10)`: skip leading whitespace, optional sign,
then base-10 digits; `none` models `NaN`.  (For the magnitudes a TTL can
take, the JS double is exact.) -/
def jsParseInt10 (s : String) : Option Int :=
  let digitsVal : List Char → Option Nat := fun cs =>
    let ds := cs.takeWhile Char.isDigit
    if ds = [] then none
    else some (ds.foldl (fun a c => a * 10 + (c.toNat - 48)) 0)
  match s.data.dropWhile Char.isWhitespace with
  | '-' :: rest => (digitsVal rest).map (fun n => -(n : Int))
  | '+' :: rest => (digitsVal rest).map Int.ofNat
  | rest => (digitsVal rest).map Int.ofNat

/-- Line 150-151: `parseInt(env.TOKEN_TTL_SECONDS || "3600", 10)` guarded
by `Number.isFinite`, falling back to 3600. -/
def turnTtl (env : TurnEnv) : Int :=
  match jsParseInt10 (jsOr env.tokenTtlVar "3600") with
  | some n => n
  | none => 3600

/-- Lines 144-163 of the worker's `fetch`, with `now` the value of
`Math.floor(Date.now() / 1000)`: the username/credential pair the response
will carry, or `none` when the configuration is incomplete (the 500
branch on lines 158-163). -/
def turnCredentials (env : TurnEnv) (now : Int) : Option (String × String) :=
  let u0 := jsTrim (env.usernameVar.getD "")
  let c0 := jsTrim (env.credentialVar.getD "")
  let uc :=
    if u0 = "" ∨ c0 = "" then
      let secret := jsTrim (env.sharedSecretVar.getD "")
      if secret = "" then (u0, c0)
      else
        let u := toString (now + turnTtl env) ++ ":" ++
          jsTrim (jsOr env.usernamePrefixVar "ink-soccer")
        (u, hmacSha1Base64 secret u)
    else (u0, c0)
  if uc.1 = "" ∨ uc.2 = "" then none else some uc

/-! ## Lemmas and claim theorems -/

theorem cleanupStep_fst (fails : Nat → Bool) (s : Sess) (c : Nat) (r : Role) :
    (cleanupStep fails s c r).1 =
      { s with
        host := if r = Role.host ∧ s.host = some c then none else s.host
        join := if r = Role.join ∧ s.join = some c then none else s.join } := rfl

theorem step_message_state (fails : Nat → Bool) (s : Sess) (src : Nat) (d : WsData) :
    (step fails s (Ev.message src d)).state = s := by
  rcases hr : roleOf s src with _ | r
  · simp [step, hr]
  · rcases ht : otherSlot s r with _ | t <;> simp [step, hr, ht]

/-- Some sessions used as concrete inputs: a freshly paired room, and a
waiting room whose sole occupant holds the host slot. -/
def pairedSess : Sess := ⟨some 0, some 1, [(1, Role.join), (0, Role.host)], [0, 1], 2⟩

def soloHostSess : Sess := ⟨some 0, none, [(0, Role.host)], [0], 1⟩

/-- C8: Forwarding is best-effort and never fatal: a message event whose
target slot is empty is dropped silently (no delivery, no state change, no
notification to the sender); a forwarding attempt whose send raises is
caught and discarded, leaving the session state unchanged; a message event
never produces a response or mutates the slots. -/
theorem C8_best_effort (fails : Nat → Bool) (s : Sess) (src : Nat) (d : WsData) :
    (step fails s (Ev.message src d)).state = s ∧
    (step fails s (Ev.message src d)).status = none ∧
    (∀ r, roleOf s src = some r → otherSlot s r = none →
      (step fails s (Ev.message src d)).sends = []) ∧
    (∀ r t, roleOf s src = some r → otherSlot s r = some t → fails t = true →
      (step fails s (Ev.message src d)).sends = []) ∧
    (roleOf s src = none → (step fails s (Ev.message src d)).sends = []) := by
  refine ⟨step_message_state fails s src d, ?_, ?_, ?_, ?_⟩
  · rcases hr : roleOf s src with _ | r
    · simp [step, hr]
    · rcases ht : otherSlot s r with _ | t <;> simp [step, hr, ht]
  · intro r hr ht
    simp [step, hr, ht]
  · intro r t hr ht hf
    simp [step, hr, ht, hf]
  · intro hr
    simp [step, hr]

theorem C8_best_effort_witness :
    (step nofail soloHostSess (Ev.message 0 (WsData.text "offer"))).sends = [] ∧
    (step nofail soloHostSess (Ev.message 0 (WsData.text "offer"))).state = soloHostSess :=
  ⟨(C8_best_effort nofail soloHostSess 0 (WsData.text "offer")).2.2.1 Role.host
      (by decide) (by decide),
    (C8_best_effort nofail soloHostSess 0 (WsData.text "offer")).1⟩

/-- C4: a connect event arriving while both slots are occupied is refused
with 409 before any upgrade: the step returns the state unchanged (no
role recorded, no slot touched, no connection id consumed, the occupants'
slots intact), delivers nothing, and answers 409. -/
theorem C4_full_room_refused (fails : Nat → Bool) (s : Sess) (room : String) (a b : Nat)
    (hh : s.host = some a) (hj : s.join = some b) :
    step fails s (Ev.connect room) = ⟨s, [], some 409⟩ := by
  simp [step, connectStep, connRole, hh, hj]

theorem C4_full_room_refused_witness :
    step nofail pairedSess (Ev.connect "TEST1") = ⟨pairedSess, [], some 409⟩ :=
  C4_full_room_refused nofail pairedSess "TEST1" 0 1 rfl rfl

/-- C10: a close/error event from a connection that no longer occupies its
slot cannot evict the current occupant: if the slot of the disconnecting
connection's captured role holds a different connection, that slot (and
the other slot) are untouched by the disconnect. -/
theorem C10_stale_close_guard (fails : Nat → Bool) (s : Sess) (c c' : Nat) (r : Role)
    (hrole : roleOf s c = some r) (hslot : slotOf s r = some c') (hne : c' ≠ c) :
    slotOf (step fails s (Ev.disconnect c)).state r = some c' ∧
    otherSlot (step fails s (Ev.disconnect c)).state r = otherSlot s r := by
  cases r with
  | host =>
    simp only [slotOf] at hslot
    have h1 : ¬ (Role.host = Role.host ∧ s.host = some c) := by
      rintro ⟨-, h⟩
      rw [hslot] at h
      exact hne (Option.some.inj h)
    simp [step, hrole, cleanupStep_fst, slotOf, otherSlot, h1, hslot, hne]
  | join =>
    simp only [slotOf] at hslot
    have h1 : ¬ (Role.join = Role.join ∧ s.join = some c) := by
      rintro ⟨-, h⟩
      rw [hslot] at h
      exact hne (Option.some.inj h)
    simp [step, hrole, cleanupStep_fst, slotOf, otherSlot, h1, hslot, hne]

/-- A reachable state where connection 0 once held the host slot but has
been replaced by connection 1 (0 disconnected and 1 reconnected), while a
late error event from 0 is still pending. -/
def staleSess : Sess := ⟨some 1, none, [(1, Role.host), (0, Role.host)], [1], 2⟩

theorem C10_stale_close_guard_witness :
    slotOf (step nofail staleSess (Ev.disconnect 0)).state Role.host = some 1 :=
  (C10_stale_close_guard nofail staleSess 0 1 Role.host (by decide) (by decide)
    (by decide)).1

theorem ne_of_toNat {c d : Char} (h : c.toNat ≠ d.toNat) : c ≠ d :=
  fun e => h (congrArg Char.toNat e)

theorem jsonEscapeChar_of_code (c : Char) (h : isCodeChar c = true) :
    jsonEscapeChar c = [c] := by
  have hr : (((65 ≤ c.toNat ∧ c.toNat ≤ 90 ∨ 97 ≤ c.toNat ∧ c.toNat ≤ 122) ∨
      48 ≤ c.toNat ∧ c.toNat ≤ 57) ∨ c.toNat = 95) ∨ c.toNat = 45 := by
    simpa [isCodeChar, Bool.or_eq_true, Bool.and_eq_true, decide_eq_true_eq,
      beq_iff_eq] using h
  have hne : c.toNat ≠ 34 ∧ c.toNat ≠ 92 ∧ c.toNat ≠ 8 ∧ c.toNat ≠ 9 ∧
      c.toNat ≠ 10 ∧ c.toNat ≠ 12 ∧ c.toNat ≠ 13 ∧ ¬ c.toNat < 32 := by
    rcases hr with (((⟨h1, h2⟩ | ⟨h1, h2⟩) | ⟨h1, h2⟩) | h1) | h1 <;> omega
  obtain ⟨n34, n92, n8, n9, n10, n12, n13, n32⟩ := hne
  unfold jsonEscapeChar
  rw [if_neg (ne_of_toNat (d := '"') n34), if_neg (ne_of_toNat (d := '\\') n92),
    if_neg (ne_of_toNat (d := '\x08') n8), if_neg (ne_of_toNat (d := '\x09') n9),
    if_neg (ne_of_toNat (d := '\x0a') n10), if_neg (ne_of_toNat (d := '\x0c') n12),
    if_neg (ne_of_toNat (d := '\x0d') n13), if_neg n32]

theorem jsonEscape_list (l : List Char) (h : ∀ c ∈ l, isCodeChar c = true) :
    l.foldr (fun c acc => jsonEscapeChar c ++ acc) [] = l := by
  induction l with
  | nil => rfl
  | cons c cs ih =>
    rw [List.foldr_cons, ih (fun x hx => h x (List.mem_cons_of_mem c hx)),
      jsonEscapeChar_of_code c (h c (List.mem_cons_self c cs))]
    rfl

theorem jsonEscape_eq_self (s : String) (h : s.data.all isCodeChar = true) :
    jsonEscape s = s := by
  unfold jsonEscape
  rw [jsonEscape_list s.data (fun c hc => List.all_eq_true.mp h c hc)]

theorem readyMsg_host (room : String) (h : jsonEscape room = room) :
    readyMsg "host" room
      = "\x7b\"t\":\"ready\",\"role\":\"host\",\"room\":\"" ++ room ++ "\"\x7d" := by
  unfold readyMsg
  rw [h]
  rfl

theorem readyMsg_join (room : String) (h : jsonEscape room = room) :
    readyMsg "join" room
      = "\x7b\"t\":\"ready\",\"role\":\"join\",\"room\":\"" ++ room ++ "\"\x7d" := by
  unfold readyMsg
  rw [h]
  rfl

/-- C3: for any valid room code, the first connection accepted by a fresh
session receives exactly `{"t":"ready","role":"host","room":CODE}` (and a
101 upgrade); the second distinct accepted connection receives
`{"t":"ready","role":"join","room":CODE}` and afterwards both occupants
each receive `{"t":"peer","state":"joined"}` (host first, then joiner). -/
theorem C3_first_two_connections (room : String) (hv : validCode room = true) :
    (step nofail initSess (Ev.connect room)).sends
      = [(0, WsData.text
          ("\x7b\"t\":\"ready\",\"role\":\"host\",\"room\":\"" ++ room ++ "\"\x7d"))] ∧
    (step nofail initSess (Ev.connect room)).status = some 101 ∧
    (step nofail (step nofail initSess (Ev.connect room)).state (Ev.connect room)).sends
      = [(1, WsData.text
            ("\x7b\"t\":\"ready\",\"role\":\"join\",\"room\":\"" ++ room ++ "\"\x7d")),
          (0, WsData.text "\x7b\"t\":\"peer\",\"state\":\"joined\"\x7d"),
          (1, WsData.text "\x7b\"t\":\"peer\",\"state\":\"joined\"\x7d")] ∧
    (step nofail (step nofail initSess (Ev.connect room)).state (Ev.connect room)).status
      = some 101 := by
  have hall : room.data.all isCodeChar = true := by
    unfold validCode at hv
    rw [Bool.and_eq_true] at hv
    exact hv.2
  have hesc : jsonEscape room = room := jsonEscape_eq_self room hall
  refine ⟨?_, rfl, ?_, rfl⟩
  · show [(0, WsData.text (readyMsg "host" room))] = _
    rw [readyMsg_host room hesc]
  · show [(1, WsData.text (readyMsg "join" room)),
        (0, WsData.text peerJoinedMsg), (1, WsData.text peerJoinedMsg)] = _
    rw [readyMsg_join room hesc]
    rfl

theorem C3_first_two_connections_witness :
    validCode "TEST1" = true ∧
    (step nofail initSess (Ev.connect "TEST1")).sends
      = [(0, WsData.text "\x7b\"t\":\"ready\",\"role\":\"host\",\"room\":\"TEST1\"\x7d")] := by
  refine ⟨by decide, ?_⟩
  rw [(C3_first_two_connections "TEST1" (by decide)).1]
  rfl

/-- C5 fails as stated in its role-reuse part: after host 0 and join 1
pair and 0 leaves, 1 is the sole occupant, holding the join slot.  When 1
then disconnects, the vacated slot is the join slot, yet the next
connection is assigned role host (line 40 hands out host whenever the host
slot is empty), so the subsequent connect does not receive the vacated
slot's role. -/
theorem C5_counterexample :
    ((runF initSess [(nofail, Ev.connect "TEST1"), (nofail, Ev.connect "TEST1"),
        (nofail, Ev.disconnect 0)]).1.host = none) ∧
    ((runF initSess [(nofail, Ev.connect "TEST1"), (nofail, Ev.connect "TEST1"),
        (nofail, Ev.disconnect 0)]).1.join = some 1) ∧
    ((runF initSess [(nofail, Ev.connect "TEST1"), (nofail, Ev.connect "TEST1"),
        (nofail, Ev.disconnect 0), (nofail, Ev.disconnect 1)]).1.join = none) ∧
    (step nofail (runF initSess [(nofail, Ev.connect "TEST1"), (nofail, Ev.connect "TEST1"),
        (nofail, Ev.disconnect 0), (nofail, Ev.disconnect 1)]).1 (Ev.connect "TEST1")).sends
      = [(2, WsData.text (readyMsg "host" "TEST1"))] ∧
    readyMsg "host" "TEST1" ≠ readyMsg "join" "TEST1" := by
  refine ⟨by decide, by decide, by decide, by decide, by decide⟩

/-- C5 (amended): a disconnect from an occupant vacates the slot that held
it and leaves the other slot untouched; if the other slot is occupied its
occupant receives `{"t":"peer","state":"left"}` (nothing is sent when it is
empty); and a subsequent accepted connect receives the vacated slot's role
when the other slot is still occupied — if the session became empty, the
subsequent connect receives role host regardless of which slot was vacated. -/
theorem C5_amended_disconnect (fails f2 : Nat → Bool) (s : Sess) (c : Nat) (r : Role)
    (room : String) (hrole : roleOf s c = some r) (hslot : slotOf s r = some c) :
    slotOf (step fails s (Ev.disconnect c)).state r = none ∧
    otherSlot (step fails s (Ev.disconnect c)).state r = otherSlot s r ∧
    (∀ p, otherSlot s r = some p → fails p = false →
      (step fails s (Ev.disconnect c)).sends = [(p, WsData.text peerLeftMsg)]) ∧
    (otherSlot s r = none → (step fails s (Ev.disconnect c)).sends = []) ∧
    (∀ p, otherSlot s r = some p → f2 s.nextId = false →
      slotOf (step f2 (step fails s (Ev.disconnect c)).state (Ev.connect room)).state r
          = some s.nextId ∧
      otherSlot (step f2 (step fails s (Ev.disconnect c)).state (Ev.connect room)).state r
          = some p ∧
      (step f2 (step fails s (Ev.disconnect c)).state (Ev.connect room)).status = some 101 ∧
      (step f2 (step fails s (Ev.disconnect c)).state (Ev.connect room)).sends.head?
        = some (s.nextId, WsData.text (readyMsg (roleStr r) room))) ∧
    (otherSlot s r = none → f2 s.nextId = false →
      (step f2 (step fails s (Ev.disconnect c)).state (Ev.connect room)).state.host
          = some s.nextId ∧
      (step f2 (step fails s (Ev.disconnect c)).state (Ev.connect room)).sends.head?
        = some (s.nextId, WsData.text (readyMsg "host" room))) := by
  cases r with
  | host =>
    simp only [slotOf] at hslot
    have hstate : (step fails s (Ev.disconnect c)).state
        = { s with host := none, live := s.live.erase c } := by
      simp [step, hrole, cleanupStep_fst, hslot]
    rw [hstate]
    refine ⟨rfl, rfl, ?_, ?_, ?_, ?_⟩
    · intro p hp hf
      simp only [otherSlot] at hp
      simp [step, hrole, cleanupStep, otherSlot, hslot, hp, hf]
    · intro hp
      simp only [otherSlot] at hp
      simp [step, hrole, cleanupStep, otherSlot, hslot, hp]
    · intro p hp hf2
      simp only [otherSlot] at hp
      refine ⟨?_, ?_, ?_, ?_⟩ <;>
        simp [step, connectStep, connRole, hf2, slotOf, otherSlot, roleStr, hp]
    · intro hp hf2
      simp only [otherSlot] at hp
      refine ⟨?_, ?_⟩ <;>
        simp [step, connectStep, connRole, hf2, roleStr, hp]
  | join =>
    simp only [slotOf] at hslot
    have hstate : (step fails s (Ev.disconnect c)).state
        = { s with join := none, live := s.live.erase c } := by
      simp [step, hrole, cleanupStep_fst, hslot]
    rw [hstate]
    refine ⟨rfl, rfl, ?_, ?_, ?_, ?_⟩
    · intro p hp hf
      simp only [otherSlot] at hp
      simp [step, hrole, cleanupStep, otherSlot, hslot, hp, hf]
    · intro hp
      simp only [otherSlot] at hp
      simp [step, hrole, cleanupStep, otherSlot, hslot, hp]
    · intro p hp hf2
      simp only [otherSlot] at hp
      refine ⟨?_, ?_, ?_, ?_⟩ <;>
        simp [step, connectStep, connRole, hf2, slotOf, otherSlot, roleStr, hp]
    · intro hp hf2
      simp only [otherSlot] at hp
      refine ⟨?_, ?_⟩ <;>
        simp [step, connectStep, connRole, hf2, roleStr, hp]

theorem C5_amended_disconnect_witness :
    slotOf (step nofail pairedSess (Ev.disconnect 1)).state Role.join = none ∧
    (step nofail pairedSess (Ev.disconnect 1)).sends = [(0, WsData.text peerLeftMsg)] ∧
    slotOf (step nofail (step nofail pairedSess (Ev.disconnect 1)).state
        (Ev.connect "TEST1")).state Role.join = some 2 := by
  obtain ⟨h1, h2, h3, h4, h5, h6⟩ := C5_amended_disconnect nofail nofail pairedSess 1
    Role.join "TEST1" (by decide) (by decide)
  exact ⟨h1, h3 0 (by decide) rfl, (h5 0 (by decide) rfl).1⟩

/-- C1 fails as stated: binary frames are not passed through with their
byte framing.  In a paired room, a binary frame `[1,2,3]` from the host is
delivered to the joiner as the text frame `"[object ArrayBuffer]"` (the
`String(evt.data)` coercion on line 54), not as the binary frame that was
received. -/
theorem C1_counterexample :
    (step nofail
        (runF initSess [(nofail, Ev.connect "TEST1"), (nofail, Ev.connect "TEST1")]).1
        (Ev.message 0 (WsData.binary [1, 2, 3]))).sends
      = [(1, WsData.text "[object ArrayBuffer]")] ∧
    WsData.text "[object ArrayBuffer]" ≠ WsData.binary [1, 2, 3] := by
  decide

/-- C1 (amended): for a message event delivered to an occupied session
whose other slot is occupied, a text frame is forwarded to that occupant
unmodified — the identical string, no parsing or transformation — and
per-sender order is preserved (two text frames from the same sender are
delivered in send order); binary frames, however, are coerced to the text
`"[object ArrayBuffer]"` rather than passed through. -/
theorem C1_amended_forwarding (fails : Nat → Bool) (s : Sess) (src t : Nat) (r : Role)
    (m1 m2 : String) (hrole : roleOf s src = some r) (ht : otherSlot s r = some t)
    (hf : fails t = false) :
    (step fails s (Ev.message src (WsData.text m1))).sends = [(t, WsData.text m1)] ∧
    (step fails s (Ev.message src (WsData.text m1))).state = s ∧
    (runF s [(fails, Ev.message src (WsData.text m1)),
        (fails, Ev.message src (WsData.text m2))]).2
      = [(t, WsData.text m1), (t, WsData.text m2)] ∧
    (step fails s (Ev.message src (WsData.binary [1, 2, 3]))).sends
      = [(t, WsData.text "[object ArrayBuffer]")] := by
  have h1 : ∀ m : String,
      (step fails s (Ev.message src (WsData.text m))).sends = [(t, WsData.text m)] := by
    intro m
    simp [step, hrole, ht, hf, coercePayload]
  have h2 : (step fails s (Ev.message src (WsData.text m1))).state = s :=
    step_message_state fails s src (WsData.text m1)
  refine ⟨h1 m1, h2, ?_, ?_⟩
  · simp only [runF, h2, List.append_nil]
    rw [h1 m1, h1 m2]
    rfl
  · simp [step, hrole, ht, hf, coercePayload]

theorem connectStep_status (fails : Nat → Bool) (s : Sess) (room : String) :
    (connectStep fails s room).status
      = some (if s.host.isSome && s.join.isSome then 409 else 101) := by
  rcases hh : s.host with _ | a <;> rcases hj : s.join with _ | b <;>
    by_cases hf : fails s.nextId <;>
      simp [connectStep, connRole, hh, hj, hf]

/-- C6 fails as stated on the liveness path: `/health` does not match the
room-path shape, yet the pipeline answers 200 (`new Response("ok")` on
line 15), not 404. -/
theorem C6_health_counterexample :
    (pipeline none nofail initSess ⟨"/health", some "websocket", none⟩).status
      = some 200 ∧
    matchRoomPath "/health" = none ∧ (200 : Nat) ≠ 404 := by
  refine ⟨rfl, by decide, by decide⟩

/-- C6 (amended): for every request whose path is not the health path
`/health` (which returns 200 regardless of the other checks), the
dispatcher/actor pipeline returns exactly, in this precedence order: 404
when the path does not match `/room/{code}` with code `[A-Za-z0-9_-]{4,20}`,
else 426 when the request lacks a websocket `Upgrade` header, else 403 when
the configured allow-list is not the wildcard and the `Origin` header
differs from it, else 409 when the addressed room already holds two
occupants, else 101. -/
theorem C6_amended_status_codes (cfg : Option String) (fails : Nat → Bool) (s : Sess)
    (req : HReq) (h : req.path ≠ "/health") :
    (pipeline cfg fails s req).status = some (
      if matchRoomPath req.path = none then 404
      else if req.upgrade.map jsToLower ≠ some "websocket" then 426
      else if allowedOriginOf cfg ≠ "*" ∧ req.origin.getD "" ≠ allowedOriginOf cfg then 403
      else if s.host.isSome && s.join.isSome then 409
      else 101) := by
  unfold pipeline workerFetch
  rw [if_neg h]
  rcases hmr : matchRoomPath req.path with _ | code
  · simp
  · simp only [Option.isSome_some, reduceCtorEq, if_neg]
    by_cases hu : req.upgrade.map jsToLower ≠ some "websocket"
    · simp [hu]
    · by_cases ho : allowedOriginOf cfg ≠ "*" ∧ req.origin.getD "" ≠ allowedOriginOf cfg
      · simp [hu, ho]
      · simp [hu, ho, roomFetch, connectStep_status]

theorem C6_amended_status_codes_witness :
    "/rooms/ABCD" ≠ "/health" ∧
    (pipeline none nofail initSess ⟨"/rooms/ABCD", some "websocket", none⟩).status
      = some 404 := by
  refine ⟨by decide, ?_⟩
  rw [C6_amended_status_codes none nofail initSess
    ⟨"/rooms/ABCD", some "websocket", none⟩ (by decide)]
  decide

theorem splitChar_of_not_mem (sep : Char) (l : List Char) (h : sep ∉ l) :
    splitChar sep l = [l] := by
  induction l with
  | nil => rfl
  | cons c cs ih =>
    have hc : ¬ c = sep := fun e => h (by rw [e]; exact List.mem_cons_self _ _)
    simp only [splitChar]
    rw [ih (fun hm => h (List.mem_cons_of_mem c hm))]
    simp [hc]

theorem matchRoomPath_inv (p c : String) (h : matchRoomPath p = some c) :
    ∃ rest : List Char, p.data = '/' :: 'r' :: 'o' :: 'o' :: 'm' :: '/' :: rest ∧
      c = ⟨rest⟩ ∧ rest.all isCodeChar = true := by
  unfold matchRoomPath at h
  split at h
  next rest heq =>
    split at h
    next hcond =>
      exact ⟨rest, heq, (Option.some.inj h).symm, hcond.2.2⟩
    next => cases h
  next => cases h

theorem roomFromPath_of_match (p c : String) (h : matchRoomPath p = some c) :
    roomFromPath p = jsToUpper c := by
  obtain ⟨rest, heq, hc, hall⟩ := matchRoomPath_inv p c h
  have hmem : '/' ∉ rest := by
    intro hm
    exact absurd (List.all_eq_true.mp hall _ hm) (by decide)
  have hsplit : splitChar '/' p.data = [[], ['r', 'o', 'o', 'm'], rest] := by
    rw [heq]
    simp only [splitChar]
    rw [splitChar_of_not_mem '/' rest hmem]
    simp
  subst hc
  unfold roomFromPath jsToUpper
  rw [hsplit]
  rfl

theorem sameUpToCase_map : ∀ (l1 l2 : List Char), l1.length = l2.length →
    ((l1.zip l2).all fun q => q.1.toUpper == q.2.toUpper) = true →
    l1.map Char.toUpper = l2.map Char.toUpper := by
  intro l1
  induction l1 with
  | nil =>
    intro l2 hlen _
    cases l2 with
    | nil => rfl
    | cons b u => simp at hlen
  | cons a t ih =>
    intro l2 hlen hall
    cases l2 with
    | nil => simp at hlen
    | cons b u =>
      simp only [List.zip_cons_cons, List.all_cons, Bool.and_eq_true, beq_iff_eq] at hall
      simp only [List.map_cons]
      rw [hall.1, ih u (by simpa using hlen) hall.2]

theorem sameUpToCase_upper (a b : String) (h : sameUpToCase a b = true) :
    jsToUpper a = jsToUpper b := by
  unfold sameUpToCase at h
  rw [Bool.and_eq_true] at h
  unfold jsToUpper
  rw [sameUpToCase_map a.data b.data (by simpa using h.1) h.2]

/-- C7: room-code lookup is case-insensitive: two room paths whose codes
differ only in ASCII letter case are routed to the same Durable Object
name (the uppercased code), hence the same session instance; the room
value the actor derives from the path is the uppercase-normalized code,
and the first ready message carries exactly that uppercased code. -/
theorem C7_case_insensitive_rooms (p1 p2 c1 c2 : String)
    (h1 : matchRoomPath p1 = some c1) (h2 : matchRoomPath p2 = some c2)
    (hcase : sameUpToCase c1 c2 = true) :
    sessionKey p1 = sessionKey p2 ∧
    roomFromPath p1 = jsToUpper c1 ∧
    roomFromPath p2 = jsToUpper c2 ∧
    (step nofail initSess (Ev.connect (roomFromPath p1))).sends
      = [(0, WsData.text (readyMsg "host" (jsToUpper c1)))] := by
  refine ⟨?_, roomFromPath_of_match p1 c1 h1, roomFromPath_of_match p2 c2 h2, ?_⟩
  · unfold sessionKey
    rw [h1, h2]
    simp [sameUpToCase_upper c1 c2 hcase]
  · rw [roomFromPath_of_match p1 c1 h1]
    rfl

theorem C7_case_insensitive_rooms_witness :
    sessionKey "/room/abcd" = sessionKey "/room/ABCD" ∧
    roomFromPath "/room/abcd" = jsToUpper "abcd" := by
  obtain ⟨h1, h2, -, -⟩ := C7_case_insensitive_rooms "/room/abcd" "/room/ABCD"
    "abcd" "ABCD" (by decide) (by decide) (by decide)
  exact ⟨h1, h2⟩

/-- The session invariant: the live connections are exactly the slot
occupants (so there are never more than two), they are pairwise distinct,
connection ids are below the `WebSocketPair` counter, and each slot's
occupant registered listeners with the matching captured role. -/
def SessInv (s : Sess) : Prop :=
  (∀ c, c ∈ s.live ↔ (s.host = some c ∨ s.join = some c)) ∧
  s.live.Nodup ∧
  (∀ c, c ∈ s.live → c < s.nextId) ∧
  (∀ c, s.host = some c → roleOf s c = some Role.host) ∧
  (∀ c, s.join = some c → roleOf s c = some Role.join)

theorem SessInv_init : SessInv initSess := by
  refine ⟨?_, ?_, ?_, ?_, ?_⟩ <;> simp [initSess]

theorem lookupRole_cons (id : Nat) (r : Role) (rs : List (Nat × Role)) (x : Nat) :
    lookupRole ((id, r) :: rs) x = if x = id then some r else lookupRole rs x := by
  by_cases h : x = id
  · subst h
    simp [lookupRole, List.find?]
  · have hb : (id == x) = false := by
      simp [Ne.symm h]
    simp [lookupRole, List.find?, hb, h]

theorem SessInv_step (fails : Nat → Bool) (s : Sess) (e : Ev) (h : SessInv s) :
    SessInv (step fails s e).state := by
  obtain ⟨hm, hnd, hlt, hhr, hjr⟩ := h
  cases e with
  | message src d =>
    rw [step_message_state]
    exact ⟨hm, hnd, hlt, hhr, hjr⟩
  | disconnect c =>
    rcases hr : roleOf s c with _ | r
    · have hcl : c ∉ s.live := by
        intro hc
        rcases (hm c).1 hc with h1 | h1
        · rw [hhr c h1] at hr
          cases hr
        · rw [hjr c h1] at hr
          cases hr
      simp only [step, hr]
      rw [List.erase_of_not_mem hcl]
      exact ⟨hm, hnd, hlt, hhr, hjr⟩
    · cases r with
      | host =>
        by_cases hc : s.host = some c
        · have hstate : (step fails s (Ev.disconnect c)).state
              = { s with host := none, live := s.live.erase c } := by
            simp [step, hr, cleanupStep_fst, hc]
          rw [hstate]
          refine ⟨?_, hnd.erase c, ?_, ?_, ?_⟩
          · show ∀ x, x ∈ s.live.erase c ↔ ((none : Option Nat) = some x ∨ s.join = some x)
            intro x
            constructor
            · intro hx
              rcases hnd.mem_erase_iff.1 hx with ⟨hxc, hxl⟩
              rcases (hm x).1 hxl with h1 | h1
              · rw [hc] at h1
                exact absurd (Option.some.inj h1).symm hxc
              · exact Or.inr h1
            · rintro (hx | hx)
              · cases hx
              · refine hnd.mem_erase_iff.2 ⟨?_, (hm x).2 (Or.inr hx)⟩
                intro hxc
                subst hxc
                exact absurd ((hjr x hx).symm.trans hr) (by decide)
          · show ∀ x, x ∈ s.live.erase c → x < s.nextId
            exact fun x hx => hlt x (List.mem_of_mem_erase hx)
          · show ∀ x, (none : Option Nat) = some x → roleOf s x = some Role.host
            intro x hx
            cases hx
          · show ∀ x, s.join = some x → roleOf s x = some Role.join
            exact hjr
        · have hcl : c ∉ s.live := by
            intro hcm
            rcases (hm c).1 hcm with h1 | h1
            · exact hc h1
            · exact absurd ((hjr c h1).symm.trans hr) (by decide)
          have hstate : (step fails s (Ev.disconnect c)).state = s := by
            simp [step, hr, cleanupStep_fst, hc, List.erase_of_not_mem hcl]
          rw [hstate]
          exact ⟨hm, hnd, hlt, hhr, hjr⟩
      | join =>
        by_cases hc : s.join = some c
        · have hstate : (step fails s (Ev.disconnect c)).state
              = { s with join := none, live := s.live.erase c } := by
            simp [step, hr, cleanupStep_fst, hc]
          rw [hstate]
          refine ⟨?_, hnd.erase c, ?_, ?_, ?_⟩
          · show ∀ x, x ∈ s.live.erase c ↔ (s.host = some x ∨ (none : Option Nat) = some x)
            intro x
            constructor
            · intro hx
              rcases hnd.mem_erase_iff.1 hx with ⟨hxc, hxl⟩
              rcases (hm x).1 hxl with h1 | h1
              · exact Or.inl h1
              · rw [hc] at h1
                exact absurd (Option.some.inj h1).symm hxc
            · rintro (hx | hx)
              · refine hnd.mem_erase_iff.2 ⟨?_, (hm x).2 (Or.inl hx)⟩
                intro hxc
                subst hxc
                exact absurd ((hhr x hx).symm.trans hr) (by decide)
              · cases hx
          · show ∀ x, x ∈ s.live.erase c → x < s.nextId
            exact fun x hx => hlt x (List.mem_of_mem_erase hx)
          · show ∀ x, s.host = some x → roleOf s x = some Role.host
            exact hhr
          · show ∀ x, (none : Option Nat) = some x → roleOf s x = some Role.join
            intro x hx
            cases hx
        · have hcl : c ∉ s.live := by
            intro hcm
            rcases (hm c).1 hcm with h1 | h1
            · exact absurd ((hhr c h1).symm.trans hr) (by decide)
            · exact hc h1
          have hstate : (step fails s (Ev.disconnect c)).state = s := by
            simp [step, hr, cleanupStep_fst, hc, List.erase_of_not_mem hcl]
          rw [hstate]
          exact ⟨hm, hnd, hlt, hhr, hjr⟩
  | connect room =>
    rcases hh : s.host with _ | a
    · -- host slot empty: the new connection becomes host
      have hcr : connRole s = some Role.host := by
        rcases hj : s.join with _ | b <;> simp [connRole, hh, hj]
      by_cases hf : fails s.nextId
      · have hstate : (step fails s (Ev.connect room)).state
            = { host := none, join := s.join, roles := (s.nextId, Role.host) :: s.roles,
                live := s.live, nextId := s.nextId + 1 } := by
          simp [step, connectStep, hcr, hf, cleanupStep_fst]
        rw [hstate]
        refine ⟨?_, hnd, ?_, ?_, ?_⟩
        · show ∀ x, x ∈ s.live ↔ ((none : Option Nat) = some x ∨ s.join = some x)
          intro x
          have hx := hm x
          rw [hh] at hx
          exact hx
        · show ∀ x, x ∈ s.live → x < s.nextId + 1
          exact fun x hx => Nat.lt_succ_of_lt (hlt x hx)
        · show ∀ x, (none : Option Nat) = some x →
            lookupRole ((s.nextId, Role.host) :: s.roles) x = some Role.host
          intro x hx
          cases hx
        · show ∀ x, s.join = some x →
            lookupRole ((s.nextId, Role.host) :: s.roles) x = some Role.join
          intro x hx
          rw [lookupRole_cons, if_neg (Nat.ne_of_lt (hlt x ((hm x).2 (Or.inr hx))))]
          exact hjr x hx
      · have hstate : (step fails s (Ev.connect room)).state
            = { host := some s.nextId, join := s.join,
                roles := (s.nextId, Role.host) :: s.roles,
                live := s.live ++ [s.nextId], nextId := s.nextId + 1 } := by
          simp [step, connectStep, hcr, hf]
        rw [hstate]
        refine ⟨?_, ?_, ?_, ?_, ?_⟩
        · show ∀ x, x ∈ s.live ++ [s.nextId] ↔ (some s.nextId = some x ∨ s.join = some x)
          intro x
          rw [List.mem_append, List.mem_singleton]
          constructor
          · rintro (hx | hx)
            · have h1 := (hm x).1 hx
              rw [hh] at h1
              rcases h1 with h1 | h1
              · cases h1
              · exact Or.inr h1
            · exact Or.inl (by rw [hx])
          · rintro (hx | hx)
            · exact Or.inr (Option.some.inj hx).symm
            · exact Or.inl ((hm x).2 (Or.inr hx))
        · show (s.live ++ [s.nextId]).Nodup
          refine hnd.append (List.nodup_singleton _) ?_
          intro x hx hx'
          rw [List.mem_singleton] at hx'
          rw [hx'] at hx
          exact absurd (hlt _ hx) (lt_irrefl _)
        · show ∀ x, x ∈ s.live ++ [s.nextId] → x < s.nextId + 1
          intro x hx
          rw [List.mem_append, List.mem_singleton] at hx
          rcases hx with hx | hx
          · exact Nat.lt_succ_of_lt (hlt x hx)
          · rw [hx]
            exact Nat.lt_succ_self _
        · show ∀ x, some s.nextId = some x →
            lookupRole ((s.nextId, Role.host) :: s.roles) x = some Role.host
          intro x hx
          rw [← Option.some.inj hx, lookupRole_cons, if_pos rfl]
        · show ∀ x, s.join = some x →
            lookupRole ((s.nextId, Role.host) :: s.roles) x = some Role.join
          intro x hx
          rw [lookupRole_cons, if_neg (Nat.ne_of_lt (hlt x ((hm x).2 (Or.inr hx))))]
          exact hjr x hx
    · rcases hj : s.join with _ | b
      · -- join slot empty: the new connection becomes join
        have hcr : connRole s = some Role.join := by
          simp [connRole, hh, hj]
        by_cases hf : fails s.nextId
        · have hstate : (step fails s (Ev.connect room)).state
              = { host := some a, join := none, roles := (s.nextId, Role.join) :: s.roles,
                  live := s.live, nextId := s.nextId + 1 } := by
            simp [step, connectStep, hcr, hf, cleanupStep_fst, hh, hj]
          rw [hstate]
          refine ⟨?_, hnd, ?_, ?_, ?_⟩
          · show ∀ x, x ∈ s.live ↔ (some a = some x ∨ (none : Option Nat) = some x)
            intro x
            have hx := hm x
            rw [hh, hj] at hx
            exact hx
          · show ∀ x, x ∈ s.live → x < s.nextId + 1
            exact fun x hx => Nat.lt_succ_of_lt (hlt x hx)
          · show ∀ x, some a = some x →
              lookupRole ((s.nextId, Role.join) :: s.roles) x = some Role.host
            intro x hx
            rw [← Option.some.inj hx, lookupRole_cons,
              if_neg (Nat.ne_of_lt (hlt a ((hm a).2 (Or.inl hh))))]
            exact hhr a hh
          · show ∀ x, (none : Option Nat) = some x →
              lookupRole ((s.nextId, Role.join) :: s.roles) x = some Role.join
            intro x hx
            cases hx
        · have hstate : (step fails s (Ev.connect room)).state
              = { host := some a, join := some s.nextId,
                  roles := (s.nextId, Role.join) :: s.roles,
                  live := s.live ++ [s.nextId], nextId := s.nextId + 1 } := by
            simp [step, connectStep, hcr, hf, hh, hj]
          rw [hstate]
          refine ⟨?_, ?_, ?_, ?_, ?_⟩
          · show ∀ x, x ∈ s.live ++ [s.nextId] ↔ (some a = some x ∨ some s.nextId = some x)
            intro x
            rw [List.mem_append, List.mem_singleton]
            constructor
            · rintro (hx | hx)
              · have h1 := (hm x).1 hx
                rw [hh, hj] at h1
                rcases h1 with h1 | h1
                · exact Or.inl h1
                · cases h1
              · exact Or.inr (by rw [hx])
            · rintro (hx | hx)
              · exact Or.inl ((hm x).2 (Or.inl (hh.trans hx)))
              · exact Or.inr (Option.some.inj hx).symm
          · show (s.live ++ [s.nextId]).Nodup
            refine hnd.append (List.nodup_singleton _) ?_
            intro x hx hx'
            rw [List.mem_singleton] at hx'
            rw [hx'] at hx
            exact absurd (hlt _ hx) (lt_irrefl _)
          · show ∀ x, x ∈ s.live ++ [s.nextId] → x < s.nextId + 1
            intro x hx
            rw [List.mem_append, List.mem_singleton] at hx
            rcases hx with hx | hx
            · exact Nat.lt_succ_of_lt (hlt x hx)
            · rw [hx]
              exact Nat.lt_succ_self _
          · show ∀ x, some a = some x →
              lookupRole ((s.nextId, Role.join) :: s.roles) x = some Role.host
            intro x hx
            rw [← Option.some.inj hx, lookupRole_cons,
              if_neg (Nat.ne_of_lt (hlt a ((hm a).2 (Or.inl hh))))]
            exact hhr a hh
          · show ∀ x, some s.nextId = some x →
              lookupRole ((s.nextId, Role.join) :: s.roles) x = some Role.join
            intro x hx
            rw [← Option.some.inj hx, lookupRole_cons, if_pos rfl]
      · -- both slots occupied: refused, state unchanged
        have hstate : (step fails s (Ev.connect room)).state = s := by
          simp [step, connectStep, connRole, hh, hj]
        rw [hstate]
        exact ⟨hm, hnd, hlt, hhr, hjr⟩

theorem SessInv_runF (evs : List ((Nat → Bool) × Ev)) :
    ∀ s, SessInv s → SessInv (runF s evs).1 := by
  induction evs with
  | nil => exact fun s h => h
  | cons fe rest ih =>
    intro s h
    rcases fe with ⟨f, e⟩
    exact ih _ (SessInv_step f s e h)

theorem nodup_length_le_one {l : List Nat} {v : Nat} (hnd : l.Nodup)
    (h : ∀ x ∈ l, x = v) : l.length ≤ 1 := by
  cases l with
  | nil => simp
  | cons a t =>
    have ha : a = v := h a (by simp)
    have ht : t = [] := by
      cases t with
      | nil => rfl
      | cons b u =>
        have hb : b = v := h b (by simp)
        rw [List.nodup_cons] at hnd
        exact absurd (show a ∈ b :: u by rw [ha, ← hb]; simp) hnd.1
    subst ht
    simp

theorem nodup_length_le_two {l : List Nat} {a b : Nat} (hnd : l.Nodup)
    (h : ∀ x ∈ l, x = a ∨ x = b) : l.length ≤ 2 := by
  cases l with
  | nil => simp
  | cons x t =>
    rw [List.nodup_cons] at hnd
    have hxt : ∀ y ∈ t, y ≠ x := fun y hy hyx => hnd.1 (hyx ▸ hy)
    have hlen : t.length ≤ 1 := by
      rcases h x (by simp) with hx | hx
      · refine nodup_length_le_one (v := b) hnd.2 (fun y hy => ?_)
        rcases h y (by simp [hy]) with h1 | h1
        · exact absurd (h1.trans hx.symm) (hxt y hy)
        · exact h1
      · refine nodup_length_le_one (v := a) hnd.2 (fun y hy => ?_)
        rcases h y (by simp [hy]) with h1 | h1
        · exact h1
        · exact absurd (h1.trans hx.symm) (hxt y hy)
    simp only [List.length_cons]
    omega

/-- C2: for every sequence of connect, message and disconnect events (with
arbitrary send-failure behaviour at each step), the session reached from
the empty session holds at most one occupant per slot and never more than
two live connections in total. -/
theorem C2_session_capacity (evs : List ((Nat → Bool) × Ev)) :
    ((runF initSess evs).1.host.toList.length ≤ 1) ∧
    ((runF initSess evs).1.join.toList.length ≤ 1) ∧
    ((runF initSess evs).1.live.length ≤ 2) := by
  obtain ⟨hm, hnd, hlt, -, -⟩ := SessInv_runF evs initSess SessInv_init
  refine ⟨?_, ?_, ?_⟩
  · cases (runF initSess evs).1.host <;> simp
  · cases (runF initSess evs).1.join <;> simp
  · rcases hh : (runF initSess evs).1.host with _ | a <;>
      rcases hj : (runF initSess evs).1.join with _ | b
    · refine nodup_length_le_two (a := 0) (b := 0) hnd (fun x hx => ?_)
      rcases (hm x).1 hx with h1 | h1
      · rw [hh] at h1
        cases h1
      · rw [hj] at h1
        cases h1
    · refine nodup_length_le_two (a := b) (b := b) hnd (fun x hx => ?_)
      rcases (hm x).1 hx with h1 | h1
      · rw [hh] at h1
        cases h1
      · rw [hj] at h1
        exact Or.inl (Option.some.inj h1).symm
    · refine nodup_length_le_two (a := a) (b := a) hnd (fun x hx => ?_)
      rcases (hm x).1 hx with h1 | h1
      · rw [hh] at h1
        exact Or.inl (Option.some.inj h1).symm
      · rw [hj] at h1
        cases h1
    · refine nodup_length_le_two (a := a) (b := b) hnd (fun x hx => ?_)
      rcases (hm x).1 hx with h1 | h1
      · rw [hh] at h1
        exact Or.inl (Option.some.inj h1).symm
      · rw [hj] at h1
        exact Or.inr (Option.some.inj h1).symm

theorem C1_amended_forwarding_witness :
    (step nofail pairedSess (Ev.message 0 (WsData.text "hello"))).sends
      = [(1, WsData.text "hello")] ∧
    (runF pairedSess [(nofail, Ev.message 0 (WsData.text "a")),
        (nofail, Ev.message 0 (WsData.text "b"))]).2
      = [(1, WsData.text "a"), (1, WsData.text "b")] :=
  ⟨(C1_amended_forwarding nofail pairedSess 0 1 Role.host "hello" "x"
      (by decide) (by decide) rfl).1,
    (C1_amended_forwarding nofail pairedSess 0 1 Role.host "a" "b"
      (by decide) (by decide) rfl).2.2.1⟩

theorem beBytes_length (k n : Nat) : (beBytes k n).length = k := by
  induction k generalizing n with
  | zero => rfl
  | succ k ih => simp [beBytes, ih]

theorem sha1_length (msg : List Nat) : (sha1 msg).length = 20 := by
  unfold sha1
  simp [beBytes_length]

theorem base64_ne_nil (l : List Nat) (h : l ≠ []) : base64 l ≠ [] := by
  rcases l with _ | ⟨b0, _ | ⟨b1, _ | ⟨b2, rest⟩⟩⟩
  · exact absurd rfl h
  · simp [base64]
  · simp [base64]
  · simp [base64]

theorem data_append (a b : String) : (a ++ b).data = a.data ++ b.data := rfl

theorem concat_colon_ne_empty (a b : String) : a ++ ":" ++ b ≠ "" := by
  intro h
  have hd := congrArg String.data h
  rw [data_append, data_append] at hd
  have hcolon : (":" : String).data = [':'] := rfl
  rw [hcolon] at hd
  simp at hd

theorem hmacSha1Base64_ne_empty (secret message : String) :
    hmacSha1Base64 secret message ≠ "" := by
  intro h
  have hd : base64 (hmacSha1 (utf8Bytes secret) (utf8Bytes message)) = [] :=
    congrArg String.data h
  have hlen : (hmacSha1 (utf8Bytes secret) (utf8Bytes message)).length = 20 := by
    unfold hmacSha1
    exact sha1_length _
  refine base64_ne_nil _ ?_ hd
  intro hnil
  rw [hnil] at hlen
  simp at hlen

/-- C9: when the TURN worker has no static username/credential configured
but does have a shared secret, the returned credentials are derived per
request: the username is `"{expiryEpochSeconds}:{prefix}"` where the
expiry is the current epoch seconds plus the configured TTL (3600 when
`TOKEN_TTL_SECONDS` is unset), and the credential is
base64(HMAC-SHA1(sharedSecret, username)). -/
theorem C9_turn_derived_credentials (env : TurnEnv) (now : Int)
    (hu : jsTrim (env.usernameVar.getD "") = "")
    (hc : jsTrim (env.credentialVar.getD "") = "")
    (hs : jsTrim (env.sharedSecretVar.getD "") ≠ "") :
    turnCredentials env now
      = some (toString (now + turnTtl env) ++ ":" ++
            jsTrim (jsOr env.usernamePrefixVar "ink-soccer"),
          hmacSha1Base64 (jsTrim (env.sharedSecretVar.getD ""))
            (toString (now + turnTtl env) ++ ":" ++
              jsTrim (jsOr env.usernamePrefixVar "ink-soccer"))) ∧
    (env.tokenTtlVar = none → turnTtl env = 3600) := by
  constructor
  · simp [turnCredentials, hu, hc, hs, concat_colon_ne_empty,
      hmacSha1Base64_ne_empty]
  · intro ht
    unfold turnTtl
    rw [ht]
    decide

def turnEnvW : TurnEnv := ⟨none, none, some "s3cret", none, none⟩

theorem C9_turn_derived_credentials_witness :
    jsTrim (turnEnvW.usernameVar.getD "") = "" ∧
    jsTrim (turnEnvW.credentialVar.getD "") = "" ∧
    jsTrim (turnEnvW.sharedSecretVar.getD "") ≠ "" ∧
    turnCredentials turnEnvW 1000
      = some ("4600:ink-soccer", hmacSha1Base64 "s3cret" "4600:ink-soccer") ∧
    turnTtl turnEnvW = 3600 := by
  obtain ⟨h1, h2⟩ := C9_turn_derived_credentials turnEnvW 1000 (by decide) (by decide)
    (by decide)
  refine ⟨by decide, by decide, by decide, ?_, h2 rfl⟩
  rw [h1]
  rfl
